import Mathlib

/-!
Verification of the `huggpackreator` ComfyUI upload node (`src/__init__.py`).

The module is a single linear procedure: resolve a folder, validate a token
and a repository identifier, build a zip archive, upload it, and report a
URL or a failure string.  We shallowly embed each of its functions as a
Lean definition.  The filesystem, the clock and the remote registry are
modelled as explicit parameters (a `World` record of boolean/string
functions); side effects of the pipeline (folder lookup, archive creation,
network calls) are recorded as an explicit list of `Effect`s so that
ordering and absence claims can be stated.
-/

namespace Huggpackreator

/-! ### Character-level string split, mirroring Python `str.split("/")` -/

/-- Split a character list on `'/'`, keeping empty segments, exactly as
Python's `str.split("/")` does (`"".split("/") = [""]`, `"a/".split("/")
= ["a", ""]`, ...). -/
def splitSlash : List Char → List (List Char)
  | [] => [[]]
  | c :: rest =>
    match splitSlash rest with
    | [] => [[]]
    | s :: ss => if c = '/' then [] :: s :: ss else (c :: s) :: ss

/-! ### Python string primitives, re-implemented over character lists
(the `Substring`-based core versions do not reduce in the kernel) -/

/-- Python's `str.startswith`. -/
def strStartsWith (s p : String) : Bool :=
  p.data.isPrefixOf s.data

/-- Python's `str.endswith`. -/
def strEndsWith (s p : String) : Bool :=
  p.data.reverse.isPrefixOf s.data.reverse

/-- Python's `str.lower` (ASCII letters; the inputs at issue are ASCII). -/
def lowerStr (s : String) : String :=
  String.mk (s.data.map Char.toLower)

/-- The whitespace Python's `str.strip()` removes. -/
def isSpaceChar (c : Char) : Bool :=
  c == ' ' || c == '\t' || c == '\n' || c == '\r' || c == '\x0b' || c == '\x0c'

/-- Python's `str.strip()`: whitespace removed from both ends. -/
def strTrim (s : String) : String :=
  String.mk (((s.data.dropWhile isSpaceChar).reverse.dropWhile
    isSpaceChar).reverse)

/-- Python's slicing `s[:-n]`: drop the last `n` characters. -/
def strDropRight (s : String) (n : Nat) : String :=
  String.mk (s.data.take (s.data.length - n))

/-- Python's `c in s` for a single character. -/
def strContainsChar (s : String) (c : Char) : Bool :=
  s.data.contains c

/-! ### Path helpers -/

/-- Join relative-path components with `/`, as `str(PurePosixPath)` does
for the `arcname` values produced by `Path.relative_to`. -/
def joinPath (components : List String) : String :=
  String.intercalate "/" components

/-- `os.path.basename`: the part after the last `/`. -/
def basename (p : String) : String :=
  String.mk ((splitSlash p.data).getLastD [])

/-- `pathlib.Path(p).name`: the last non-empty `/`-separated component
(`Path("/a/b/").name = "b"`, `Path("/").name = ""`). -/
def pathName (p : String) : String :=
  String.mk (((splitSlash p.data).filter (· ≠ [])).getLastD [])

/-! ### Clock and timestamp formatting (`datetime.now().strftime("%Y%m%d_%H%M%S")`) -/

/-- A wall-clock instant, as read by `datetime.now()`. -/
structure DateTime where
  year : Nat
  month : Nat
  day : Nat
  hour : Nat
  minute : Nat
  second : Nat
deriving DecidableEq, Repr

/-- The field bounds `datetime` guarantees (years below 1000 never occur in
practice and would make `%Y` platform-dependent, so we require four digits). -/
def DateTime.Valid (d : DateTime) : Prop :=
  1000 ≤ d.year ∧ d.year ≤ 9999 ∧ 1 ≤ d.month ∧ d.month ≤ 12 ∧
    1 ≤ d.day ∧ d.day ≤ 31 ∧ d.hour ≤ 23 ∧ d.minute ≤ 59 ∧ d.second ≤ 59

instance (d : DateTime) : Decidable d.Valid := by
  unfold DateTime.Valid; infer_instance

/-- Two decimal digits with a leading zero, as `%m`, `%d`, `%H`, `%M`, `%S`
render a value below 100. -/
def pad2 (n : Nat) : List Char :=
  [Nat.digitChar (n / 10 % 10), Nat.digitChar (n % 10)]

/-- Four decimal digits, as `%Y` renders a four-digit year. -/
def pad4 (n : Nat) : List Char :=
  [Nat.digitChar (n / 1000 % 10), Nat.digitChar (n / 100 % 10),
   Nat.digitChar (n / 10 % 10), Nat.digitChar (n % 10)]

/-- `strftime("%Y%m%d_%H%M%S")`. -/
def fmtTimestamp (d : DateTime) : String :=
  String.mk (pad4 d.year ++ pad2 d.month ++ pad2 d.day ++ '_' ::
    (pad2 d.hour ++ pad2 d.minute ++ pad2 d.second))

/-! ### `generate_zip_name` -/

/-- `generate_zip_name(folder_path, custom_name)`: the current time is an
explicit argument.  A custom name counts only when it is non-empty and not
pure whitespace (`custom_name and custom_name.strip()`); a trailing `.zip`
is stripped case-insensitively (`custom_name.lower().endswith('.zip')`,
then `custom_name[:-4]`). -/
def generate_zip_name (folder_path : String) (custom_name : String)
    (now : DateTime) : String :=
  let timestamp := fmtTimestamp now
  if custom_name != "" && strTrim custom_name != "" then
    let base :=
      if strEndsWith (lowerStr custom_name) ".zip" then strDropRight custom_name 4
      else custom_name
    base ++ "_" ++ timestamp ++ ".zip"
  else
    pathName folder_path ++ "_" ++ timestamp ++ ".zip"

/-! ### `validate_token` and `validate_repo` -/

/-- `validate_token(token)`: an empty token is rejected; any other token is
accepted (prefix and length problems only print warnings). -/
def validate_token (token : String) : Bool :=
  if token = "" then false else true

/-- The warnings `validate_token` prints for a non-empty token. -/
def token_warnings (token : String) : List String :=
  (if ¬ strStartsWith token "hf_" then
    ["⚠️  Token pode estar inválido (deveria começar com 'hf_')"] else []) ++
  (if token.length < 20 then ["⚠️  Token parece muito curto"] else [])

/-- `validate_repo(repo)`: rejects the empty string, a string without `/`,
and a `split("/")` that is not two non-empty parts. -/
def validate_repo (repo : String) : Bool :=
  if repo = "" then false
  else if ¬ strContainsChar repo '/' then false
  else
    match splitSlash repo.data with
    | [a, b] => !a.isEmpty && !b.isEmpty
    | _ => false

/-! ### Filesystem model and `create_zip` -/

/-- One entry of the recursive directory listing `Path(folder).rglob('*')`:
its path relative to the folder root (a non-empty component list) and
whether it is a regular file (otherwise it is a directory). -/
structure FSEntry where
  path : List String
  isFile : Bool
deriving DecidableEq, Repr

/-- `total_files`: how many listed entries are regular files. -/
def countFiles (entries : List FSEntry) : Nat :=
  entries.countP (·.isFile)

/-- Whether the directory at `p` has an immediate child in the listing
(`list(file_path.iterdir())` is non-empty). -/
def hasChild (entries : List FSEntry) (p : List String) : Bool :=
  entries.any fun e => e.path.length = p.length + 1 && e.path.take p.length == p

/-- The archive member names written by the `for file_path in all_files`
loop: regular files under their relative path, and childless directories
under their relative path with a trailing `/` (as `ZipInfo.from_file`
appends for a directory). -/
def zipEntryNames (root : List FSEntry) : List FSEntry → List String
  | [] => []
  | e :: rest =>
    if e.isFile then joinPath e.path :: zipEntryNames root rest
    else if hasChild root e.path then zipEntryNames root rest
    else (joinPath e.path ++ "/") :: zipEntryNames root rest

/-- Compression method of the container (`zipfile.ZIP_DEFLATED`). -/
inductive CompressMethod where
  | stored
  | deflated
deriving DecidableEq, Repr

/-- The archive `create_zip` writes: the `ZipFile(..., ZIP_DEFLATED,
compresslevel=6)` parameters and the member names in writing order. -/
structure ZipArchive where
  method : CompressMethod
  level : Nat
  entries : List String
deriving DecidableEq, Repr

/-- `create_zip(folder_path, zip_path)` on the folder's recursive listing:
`none` when `total_files == 0` (the function returns `False` before any
file is written), otherwise the archive produced. -/
def create_zip (entries : List FSEntry) : Option ZipArchive :=
  if countFiles entries = 0 then none
  else some ⟨CompressMethod.deflated, 6, zipEntryNames entries entries⟩

/-! ### `find_folder` -/

/-- The `possible_paths` list built by `find_folder`. -/
def possible_paths (folder_path : String) : List String :=
  (if strStartsWith folder_path "/" then [folder_path]
   else ["/" ++ folder_path, folder_path]) ++
  ["./" ++ folder_path, "../" ++ folder_path,
   if ¬ strStartsWith folder_path "/workspace" then "/workspace/" ++ folder_path
   else folder_path]

/-- The `for path in possible_paths` loop: the realpath of the first
candidate that is a directory. -/
def firstDir (isdir : String → Bool) (realpath : String → String) :
    List String → Option String
  | [] => none
  | p :: rest =>
    if isdir p then some (realpath p) else firstDir isdir realpath rest

/-- `find_folder(folder_path)`, with the filesystem (`os.path.isdir`,
`os.path.realpath`) passed explicitly. -/
def find_folder (isdir : String → Bool) (realpath : String → String)
    (folder_path : String) : Option String :=
  firstDir isdir realpath (possible_paths folder_path)

/-! ### The node: environment, effects, `upload_to_hf`, `upload_folder` -/

/-- An observable side effect of one node invocation: a folder lookup, the
creation of the archive on disk, or a network call against the registry. -/
inductive Effect where
  | lookupFolder (path : String)
  | writeArchive (name : String)
  | repoInfo (repo : String)
  | createRepo (repo : String)
  | uploadFile (repo : String) (filename : String) (commitMessage : String)
deriving DecidableEq, Repr

/-- Whether an effect is a network call against the registry. -/
def Effect.isNetwork : Effect → Bool
  | .repoInfo _ | .createRepo _ | .uploadFile _ _ _ => true
  | _ => false

/-- The ambient state a node invocation runs against: whether
`huggingface_hub` can be imported/installed, the filesystem, the temporary
directory, the registry contents, the upload outcome, and the clock. -/
structure World where
  depsOk : Bool
  isdir : String → Bool
  realpath : String → String
  entriesOf : String → List FSEntry
  tmpDir : String
  repoExists : String → Bool
  uploadUrl : String → String → Option String
  now : DateTime

/-- `upload_to_hf(zip_path, repo_id, token, ...)`: look the repository up,
create it when the lookup fails, then upload the single file with commit
message `f"Upload automático: {filename}"`.  Returns the URL (or `none`
when `upload_file` raises) together with the network effects performed. -/
def upload_to_hf (w : World) (zip_path repo_id : String) :
    Option String × List Effect :=
  let filename := basename zip_path
  let createEffs :=
    if w.repoExists repo_id then [] else [Effect.createRepo repo_id]
  let commitMessage := "Upload automático: " ++ filename
  (w.uploadUrl repo_id filename,
   Effect.repoInfo repo_id :: createEffs ++
     [Effect.uploadFile repo_id filename commitMessage])

/-- `HuggingFaceUploadNode.upload_folder`, as the returned string together
with the trace of lookup/archive/network effects.  The four trigger-image
inputs are unused by the body and omitted; exception texts interpolated
into messages are dropped. -/
def upload_folder (w : World) (hf_token repo_id folder_path zip_name : String) :
    String × List Effect :=
  if ¬ w.depsOk then ("❌ Erro ao instalar dependências", [])
  else if ¬ validate_token hf_token then ("❌ Token inválido", [])
  else if ¬ validate_repo repo_id then ("❌ Repositório inválido", [])
  else
    match find_folder w.isdir w.realpath folder_path with
    | none => ("❌ Pasta não encontrada", [Effect.lookupFolder folder_path])
    | some real =>
      let zip_filename := generate_zip_name real zip_name w.now
      let zip_path := w.tmpDir ++ "/" ++ zip_filename
      match create_zip (w.entriesOf real) with
      | none => ("❌ Falha ao criar ZIP", [Effect.lookupFolder folder_path])
      | some _ =>
        let r := upload_to_hf w zip_path repo_id
        let effs := Effect.lookupFolder folder_path ::
          Effect.writeArchive zip_filename :: r.2
        match r.1 with
        | some url => (url, effs)
        | none => ("❌ Falha no upload", effs)

/-! ### Host-integration metadata (`INPUT_TYPES`, the function signature) -/

/-- The `required` inputs declared by `HuggingFaceUploadNode.INPUT_TYPES`,
as (name, type) pairs in declaration order. -/
def nodeRequiredInputs : List (String × String) :=
  [("hf_token", "STRING"), ("repo_id", "STRING"), ("folder_path", "STRING"),
   ("zip_name", "STRING"), ("trigger_image_1", "IMAGE"),
   ("trigger_image_2", "IMAGE"), ("trigger_image_3", "IMAGE"),
   ("trigger_image_4", "IMAGE")]

/-- The parameter names of the Python method `upload_folder` (after
`self`), all without defaults. -/
def uploadFolderParamNames : List String :=
  ["hf_token", "repo_id", "folder_path", "zip_name",
   "trigger_image_1", "trigger_image_2", "trigger_image_3"]

/-- `RETURN_TYPES`: the node declares exactly one `STRING` output. -/
def nodeReturnTypes : List String := ["STRING"]

/-- Python keyword-argument binding for a function whose parameters all
lack defaults: the call succeeds exactly when the provided names and the
parameter names coincide as sets. -/
def callAccepts (params provided : List String) : Bool :=
  params.all provided.contains && provided.all params.contains

/-! ### Spec-side definitions

These follow the wording of the specification (not the code) and are
compared with the embedded functions in the claim theorems. -/

/-- Spec wording: the part of the identifier left of the separator. -/
def leftPart (l : List Char) : List Char :=
  l.takeWhile (fun c => c != '/')

/-- Spec wording: the part of the identifier right of the separator. -/
def rightPart (l : List Char) : List Char :=
  (l.dropWhile (fun c => c != '/')).drop 1

/-- Spec wording for the archive contents: one entry per regular file under
its path relative to the source folder root, plus one placeholder entry
(trailing `/`) per empty subdirectory, and nothing else. -/
def specEntryName (root : List FSEntry) (e : FSEntry) : Option String :=
  if e.isFile then some (joinPath e.path)
  else if hasChild root e.path then none
  else some (joinPath e.path ++ "/")

/-- Spec wording for the base name: the caller-supplied custom name with a
trailing `.zip` extension stripped, or the source folder's own name when no
custom name is supplied. -/
def stripZipExt (name : String) : String :=
  if strEndsWith (lowerStr name) ".zip" then strDropRight name 4 else name

/-- Spec wording: base name selection for the archive name. -/
def specBaseName (folder_path custom_name : String) : String :=
  if custom_name != "" && strTrim custom_name != "" then stripZipExt custom_name
  else pathName folder_path

/-- The candidate list exactly as the claim enumerates it: the input itself
when it starts with `/`, otherwise `/`+input then the input, followed by
`./`+input, `../`+input, and `/workspace/`+input (or the input itself when
it already starts with `/workspace`). -/
def specCandidates (p : String) : List String :=
  (if strStartsWith p "/" then [p] else ["/" ++ p, p]) ++
  ["./" ++ p, "../" ++ p,
   if strStartsWith p "/workspace" then p else "/workspace/" ++ p]

/-- Whether an effect is the single-file upload call. -/
def Effect.isUpload : Effect → Bool
  | .uploadFile _ _ _ => true
  | _ => false

/-! ### Concrete worlds and folders used to instantiate the theorems -/

/-- The claim's example folder: files `a.txt` and `b/c.txt`, empty
directory `d` (the listing also shows the non-empty directory `b`). -/
def demoEntries : List FSEntry :=
  [⟨["a.txt"], true⟩, ⟨["b"], false⟩, ⟨["b", "c.txt"], true⟩, ⟨["d"], false⟩]

/-- A listing holding only an (empty) subdirectory and no regular file. -/
def dirOnlyEntries : List FSEntry := [⟨["d"], false⟩]

/-- A fixed instant for the naming examples. -/
def d0 : DateTime := ⟨2026, 10, 12, 3, 45, 9⟩

/-- A well-formed credential (`hf_` prefix, length ≥ 20). -/
def goodToken : String := "hf_abcdefghijklmnopqrst"

/-- A world where `/workspace/demo` exists and holds `demoEntries`, and
uploads succeed. -/
def w0 : World where
  depsOk := true
  isdir := fun p => p == "/workspace/demo"
  realpath := id
  entriesOf := fun p => if p == "/workspace/demo" then demoEntries else []
  tmpDir := "/tmp/t"
  repoExists := fun _ => false
  uploadUrl := fun r f => some ("https://huggingface.co/" ++ r ++ "/blob/main/" ++ f)
  now := d0

/-- A world where `/data/empty` exists but is an empty directory. -/
def wEmpty : World where
  depsOk := true
  isdir := fun p => p == "/data/empty"
  realpath := id
  entriesOf := fun _ => []
  tmpDir := "/tmp/t"
  repoExists := fun _ => true
  uploadUrl := fun _ _ => none
  now := d0

/-! ### Supporting lemmas -/

/-- `splitSlash` never returns the empty list. -/
theorem splitSlash_ne_nil (l : List Char) : splitSlash l ≠ [] := by
  cases l with
  | nil => simp [splitSlash]
  | cons c rest =>
    simp only [splitSlash]
    cases h : splitSlash rest with
    | nil => simp
    | cons s ss =>
      by_cases hc : c = '/' <;> simp [hc]

/-- Characterization of a one-segment split: the string holds no slash. -/
theorem splitSlash_eq_single {l a : List Char} (h : splitSlash l = [a]) :
    l = a ∧ '/' ∉ a := by
  induction l generalizing a with
  | nil =>
    simp only [splitSlash, List.cons.injEq, and_true] at h
    subst h
    simp
  | cons c rest ih =>
    simp only [splitSlash] at h
    cases hr : splitSlash rest with
    | nil => exact absurd hr (splitSlash_ne_nil rest)
    | cons s ss =>
      rw [hr] at h
      by_cases hc : c = '/'
      · simp [hc] at h
      · simp only [if_neg hc, List.cons.injEq] at h
        obtain ⟨h1, h2⟩ := h
        have := ih (a := s) (by rw [hr, h2])
        constructor
        · rw [← h1, this.1]
        · rw [← h1]
          intro hmem
          rcases List.mem_cons.mp hmem with h3 | h3
          · exact hc h3.symm
          · exact this.2 h3

/-- Characterization of a two-segment split: the string is
`a ++ "/" ++ b` with both parts slash-free. -/
theorem splitSlash_eq_pair {l a b : List Char} (h : splitSlash l = [a, b]) :
    l = a ++ '/' :: b ∧ '/' ∉ a ∧ '/' ∉ b := by
  induction l generalizing a with
  | nil => simp [splitSlash] at h
  | cons c rest ih =>
    simp only [splitSlash] at h
    cases hr : splitSlash rest with
    | nil => exact absurd hr (splitSlash_ne_nil rest)
    | cons s ss =>
      rw [hr] at h
      by_cases hc : c = '/'
      · simp only [if_pos hc, List.cons.injEq] at h
        obtain ⟨h1, h2, h3⟩ := h
        have hsingle := splitSlash_eq_single (l := rest) (a := b) (by rw [hr, h2, h3])
        refine ⟨?_, ?_, hsingle.2⟩
        · rw [← h1, hc, hsingle.1]; rfl
        · rw [← h1]; simp
      · simp only [if_neg hc, List.cons.injEq] at h
        obtain ⟨h1, h2⟩ := h
        have := ih (a := s) (by rw [hr, h2])
        obtain ⟨e1, e2, e3⟩ := this
        refine ⟨?_, ?_, e3⟩
        · rw [← h1, e1]; rfl
        · rw [← h1]
          intro hmem
          rcases List.mem_cons.mp hmem with h3 | h3
          · exact hc h3.symm
          · exact e2 h3

/-- Number of slashes in terms of the number of split segments. -/
theorem splitSlash_length (l : List Char) :
    (splitSlash l).length = l.count '/' + 1 := by
  induction l with
  | nil => simp [splitSlash]
  | cons c rest ih =>
    simp only [splitSlash]
    cases hr : splitSlash rest with
    | nil => exact absurd hr (splitSlash_ne_nil rest)
    | cons s ss =>
      rw [hr] at ih
      simp only [List.length_cons] at ih
      by_cases hc : c = '/'
      · subst hc
        simp [List.count_cons_self]
        omega
      · simp only [if_neg hc, List.length_cons,
          List.count_cons_of_ne (Ne.symm hc)]
        omega

/-- When the repository identifier is rejected, `upload_folder` stops at
one of the three pre-lookup failure messages with an empty effect trace. -/
theorem upload_folder_aborts_early (w : World) (t repo f z : String)
    (hv : validate_repo repo = false) :
    ((upload_folder w t repo f z).1 = "❌ Erro ao instalar dependências" ∨
     (upload_folder w t repo f z).1 = "❌ Token inválido" ∨
     (upload_folder w t repo f z).1 = "❌ Repositório inválido") ∧
    (upload_folder w t repo f z).2 = [] := by
  unfold upload_folder
  by_cases hd : w.depsOk = true
  · by_cases ht : validate_token t = true
    · simp [hd, ht, hv]
    · simp [hd, ht]
  · simp [hd]

/-- Decimal digits render as digit characters. -/
theorem digitChar_isDigit {x : Nat} (h : x < 10) :
    (Nat.digitChar x).isDigit = true := by
  interval_cases x <;> decide

/-- The last digit of any number renders as a digit character. -/
theorem digitChar_mod10_isDigit (x : Nat) :
    (Nat.digitChar (x % 10)).isDigit = true :=
  digitChar_isDigit (Nat.mod_lt x (by norm_num))

/-- The zip-writing loop is the `filterMap` of the per-entry spec rule. -/
theorem zipEntryNames_eq_filterMap (root l : List FSEntry) :
    zipEntryNames root l = l.filterMap (specEntryName root) := by
  induction l with
  | nil => rfl
  | cons e rest ih =>
    by_cases hf : e.isFile = true
    · simp [zipEntryNames, specEntryName, hf, ih]
    · by_cases hc : hasChild root e.path = true
      · simp [zipEntryNames, specEntryName, hf, hc, ih]
      · simp [zipEntryNames, specEntryName, hf, hc, ih]

/-- The candidate loop returns the realpath of the first hit of `find?`. -/
theorem firstDir_eq_findFirst (isdir : String → Bool)
    (realpath : String → String) (l : List String) :
    firstDir isdir realpath l = (l.find? isdir).map realpath := by
  induction l with
  | nil => rfl
  | cons p rest ih =>
    by_cases hp : isdir p = true
    · simp [firstDir, List.find?_cons, hp]
    · simp [firstDir, List.find?_cons, hp, ih]

/-- `takeWhile (· != '/')` over `a ++ '/' :: b` with slash-free `a` is `a`. -/
theorem takeWhile_append_slash (a b : List Char) (ha : '/' ∉ a) :
    (a ++ '/' :: b).takeWhile (fun c => c != '/') = a := by
  induction a with
  | nil => simp
  | cons c cs ih =>
    have hc : c ≠ '/' := fun h => ha (h ▸ List.mem_cons_self c cs)
    simp only [List.cons_append, List.takeWhile_cons]
    rw [if_pos (by simpa using hc), ih (fun h => ha (List.mem_cons_of_mem _ h))]

/-- `dropWhile (· != '/')` over `a ++ '/' :: b` with slash-free `a` leaves
`'/' :: b`. -/
theorem dropWhile_append_slash (a b : List Char) (ha : '/' ∉ a) :
    (a ++ '/' :: b).dropWhile (fun c => c != '/') = '/' :: b := by
  induction a with
  | nil => simp
  | cons c cs ih =>
    have hc : c ≠ '/' := fun h => ha (h ▸ List.mem_cons_self c cs)
    simp only [List.cons_append, List.dropWhile_cons]
    rw [if_pos (by simpa using hc), ih (fun h => ha (List.mem_cons_of_mem _ h))]

/-- When `validate_repo` accepts, the identifier has exactly one slash and
non-empty parts on both sides of it. -/
theorem validate_repo_eq_true_shape {repo : String}
    (h : validate_repo repo = true) :
    repo.data.count '/' = 1 ∧ leftPart repo.data ≠ [] ∧
      rightPart repo.data ≠ [] := by
  unfold validate_repo at h
  split at h
  · simp at h
  · split at h
    · simp at h
    · split at h
      case _ a b heq =>
        obtain ⟨he, hna, hnb⟩ := splitSlash_eq_pair heq
        have ha : '/' ∉ a := hna
        have hb : '/' ∉ b := hnb
        simp only [Bool.and_eq_true, Bool.not_eq_true', List.isEmpty_eq_false] at h
        refine ⟨?_, ?_, ?_⟩
        · rw [he, List.count_append, List.count_eq_zero_of_not_mem ha,
            List.count_cons_self, List.count_eq_zero_of_not_mem hb]
        · rw [leftPart, he, takeWhile_append_slash a b ha]
          exact h.1
        · rw [rightPart, he, dropWhile_append_slash a b ha]
          simpa using h.2
      case _ => simp at h

/-! ### Claim theorems -/

/-- C1: for every source folder holding at least one regular file,
`create_zip` produces a deflate-compressed archive at fixed compression
level 6 whose member list is exactly one entry per regular file, named by
the file's path relative to the folder root, plus one trailing-`/`
placeholder entry per empty subdirectory, and nothing else. -/
theorem create_zip_nonempty_spec (entries : List FSEntry)
    (h : 0 < countFiles entries) :
    ∃ a, create_zip entries = some a ∧
      a.method = CompressMethod.deflated ∧ a.level = 6 ∧
      a.entries = entries.filterMap (specEntryName entries) := by
  refine ⟨⟨CompressMethod.deflated, 6, zipEntryNames entries entries⟩, ?_, rfl,
    rfl, ?_⟩
  · unfold create_zip
    rw [if_neg (by omega)]
  · exact zipEntryNames_eq_filterMap entries entries

/-- C1 witness: the folder with files `a.txt`, `b/c.txt` and empty
directory `d` yields exactly the three entries `a.txt`, `b/c.txt`, `d/`. -/
theorem create_zip_nonempty_spec_witness :
    (∃ a, create_zip demoEntries = some a ∧
      a.method = CompressMethod.deflated ∧ a.level = 6 ∧
      a.entries = demoEntries.filterMap (specEntryName demoEntries)) ∧
    create_zip demoEntries =
      some ⟨CompressMethod.deflated, 6, ["a.txt", "b/c.txt", "d/"]⟩ :=
  ⟨create_zip_nonempty_spec demoEntries (by decide), by decide⟩

/-- C2: a destination identifier without exactly one `/`, or with an empty
part on either side of it, is rejected by `validate_repo`, and
`upload_folder` then returns a `❌` failure string with an empty effect
trace: no folder lookup, no archive creation, no network call. -/
theorem validate_repo_rejects_bad_format (repo : String)
    (h : ¬ (repo.data.count '/' = 1 ∧ leftPart repo.data ≠ [] ∧
      rightPart repo.data ≠ [])) :
    validate_repo repo = false ∧
    ∀ w hf_token folder_path zip_name,
      strStartsWith (upload_folder w hf_token repo folder_path zip_name).1 "❌"
        = true ∧
      (upload_folder w hf_token repo folder_path zip_name).2 = [] := by
  have hv : validate_repo repo = false := by
    cases hvr : validate_repo repo with
    | false => rfl
    | true => exact absurd (validate_repo_eq_true_shape hvr) h
  refine ⟨hv, fun w hf_token folder_path zip_name => ?_⟩
  obtain ⟨hres, heff⟩ := upload_folder_aborts_early w hf_token repo
    folder_path zip_name hv
  refine ⟨?_, heff⟩
  rcases hres with hcase | hcase | hcase <;> rw [hcase] <;> decide

/-- C2 witness: the identifier `alice` (no separator) is rejected with no
archive created and no network call made. -/
theorem validate_repo_rejects_bad_format_witness :
    validate_repo "alice" = false ∧
    strStartsWith (upload_folder w0 "hf_x" "alice" "demo" "").1 "❌" = true ∧
    (upload_folder w0 "hf_x" "alice" "demo" "").2 = [] := by
  have h := validate_repo_rejects_bad_format "alice" (by decide)
  exact ⟨h.1, h.2 w0 "hf_x" "demo" ""⟩

/-- C3: for a fixed current time the generated archive name is exactly
`<base-name>_<YYYYMMDD_HHMMSS>.zip`, where the base name is the supplied
custom name with a trailing `.zip` stripped, or else the folder's own
name; the timestamp part is fifteen characters, all decimal digits except
the `_` at index 8. -/
theorem generate_zip_name_format (folder custom : String) (d : DateTime)
    (_h : d.Valid) :
    generate_zip_name folder custom d =
      specBaseName folder custom ++ "_" ++ fmtTimestamp d ++ ".zip" ∧
    (fmtTimestamp d).data.length = 15 ∧
    (fmtTimestamp d).data.map Char.isDigit =
      [true, true, true, true, true, true, true, true, false,
       true, true, true, true, true, true] ∧
    (fmtTimestamp d).data[8]? = some '_' := by
  refine ⟨?_, ?_, ?_, ?_⟩
  · cases hcb : (custom != "" && strTrim custom != "") with
    | true => simp [generate_zip_name, specBaseName, stripZipExt, hcb]
    | false => simp [generate_zip_name, specBaseName, hcb]
  · simp [fmtTimestamp, pad4, pad2]
  · simp [fmtTimestamp, pad4, pad2, digitChar_mod10_isDigit]
  · simp [fmtTimestamp, pad4, pad2]

/-- C3 witness: at 2026-10-12 03:45:09 the custom name `pack.ZIP` yields
`pack_20261012_034509.zip`. -/
theorem generate_zip_name_format_witness :
    (generate_zip_name "/workspace/demo" "pack.ZIP" d0 =
      specBaseName "/workspace/demo" "pack.ZIP" ++ "_" ++ fmtTimestamp d0 ++
        ".zip") ∧
    generate_zip_name "/workspace/demo" "pack.ZIP" d0 =
      "pack_20261012_034509.zip" :=
  ⟨(generate_zip_name_format "/workspace/demo" "pack.ZIP" d0 (by decide)).1,
   by decide⟩

/-- C4 counterexample: an empty credential is not warning-only —
`validate_token` rejects it and `upload_folder` aborts with the
token-failure string. -/
theorem validate_token_empty_fatal :
    validate_token "" = false ∧
    (upload_folder w0 "" "alice/repo" "demo" "").1 = "❌ Token inválido" ∧
    (upload_folder w0 "" "alice/repo" "demo" "").2 = [] := by
  decide

/-- C4 (amended): for every non-empty credential, even one that is short
or lacks the `hf_` prefix, validation is warning-only and not fatal:
`validate_token` accepts it, warnings may be printed, and `upload_folder`
behaves exactly as with a well-formed credential. -/
theorem validate_token_nonempty_not_fatal (token : String) (h : token ≠ "") :
    validate_token token = true ∧
    ((token.length < 20 ∨ ¬ strStartsWith token "hf_") →
      token_warnings token ≠ []) ∧
    ∀ w repo folder_path zip_name,
      upload_folder w token repo folder_path zip_name =
        upload_folder w goodToken repo folder_path zip_name := by
  have hv : validate_token token = true := by simp [validate_token, h]
  refine ⟨hv, ?_, ?_⟩
  · intro hw
    rcases hw with hlen | hpre
    · by_cases hp : strStartsWith token "hf_" = true <;>
        simp [token_warnings, hp, hlen]
    · by_cases hl : token.length < 20 <;>
        simp [token_warnings, hpre, hl]
  · intro w repo folder_path zip_name
    unfold upload_folder
    rw [hv, show validate_token goodToken = true from by decide]

/-- C4 witness: the short, unprefixed credential `abc` is accepted with
warnings and leaves the run identical to one with a well-formed token. -/
theorem validate_token_nonempty_not_fatal_witness :
    validate_token "abc" = true ∧ token_warnings "abc" ≠ [] ∧
    upload_folder w0 "abc" "alice/repo" "/workspace/demo" "" =
      upload_folder w0 goodToken "alice/repo" "/workspace/demo" "" := by
  have h := validate_token_nonempty_not_fatal "abc" (by decide)
  exact ⟨h.1, h.2.1 (Or.inl (by decide)),
    h.2.2 w0 "alice/repo" "/workspace/demo" ""⟩

/-- C5: the node declares four trigger-image inputs as required, but the
`upload_folder` method only has parameters for three of them, so binding
the declared inputs to the method fails — `trigger_image_4` is declared
yet not accepted.  (The single declared output is `STRING`.) -/
theorem node_signature_mismatch :
    nodeRequiredInputs.countP (fun i => i.2 == "IMAGE") = 4 ∧
    uploadFolderParamNames.countP (fun n => strStartsWith n "trigger_image")
      = 3 ∧
    (nodeRequiredInputs.map Prod.fst).contains "trigger_image_4" = true ∧
    uploadFolderParamNames.contains "trigger_image_4" = false ∧
    callAccepts uploadFolderParamNames (nodeRequiredInputs.map Prod.fst)
      = false ∧
    nodeReturnTypes = ["STRING"] := by
  decide

/-- C6: when the inputs pass validation and the folder is found but the
folder is empty, `create_zip` fails, no archive is produced, and
`upload_folder` returns the zip-failure string with only the folder lookup
in its effect trace (no archive write, no network call). -/
theorem upload_folder_empty_folder_fatal (w : World)
    (token repo folder_path zip_name real : String)
    (hd : w.depsOk = true) (ht : validate_token token = true)
    (hr : validate_repo repo = true)
    (hf : find_folder w.isdir w.realpath folder_path = some real)
    (he : w.entriesOf real = []) :
    create_zip (w.entriesOf real) = none ∧
    (upload_folder w token repo folder_path zip_name).1 =
      "❌ Falha ao criar ZIP" ∧
    (upload_folder w token repo folder_path zip_name).2 =
      [Effect.lookupFolder folder_path] := by
  have hz : create_zip (w.entriesOf real) = none := by
    rw [he]
    simp [create_zip, countFiles]
  refine ⟨hz, ?_⟩
  unfold upload_folder
  simp [hd, ht, hr, hf, hz]

/-- C6 witness: an existing but empty folder `/data/empty` makes the run
fail with `❌ Falha ao criar ZIP` and no archive or network effects. -/
theorem upload_folder_empty_folder_fatal_witness :
    create_zip (wEmpty.entriesOf "/data/empty") = none ∧
    (upload_folder wEmpty "hf_x" "alice/repo" "/data/empty" "").1 =
      "❌ Falha ao criar ZIP" ∧
    (upload_folder wEmpty "hf_x" "alice/repo" "/data/empty" "").2 =
      [Effect.lookupFolder "/data/empty"] :=
  upload_folder_empty_folder_fatal wEmpty "hf_x" "alice/repo" "/data/empty"
    "" "/data/empty" (by decide) (by decide) (by decide) (by decide)
    (by decide)

/-- C7: for every upload, the repository is looked up and created exactly
when absent (and reused otherwise), and exactly one file upload is
performed, for the archive's basename, with a commit message containing
that filename. -/
theorem upload_to_hf_create_and_single_upload (w : World)
    (zip_path repo_id : String) :
    (Effect.createRepo repo_id ∈ (upload_to_hf w zip_path repo_id).2 ↔
      w.repoExists repo_id = false) ∧
    (upload_to_hf w zip_path repo_id).2.countP Effect.isUpload = 1 ∧
    ∃ msg, Effect.uploadFile repo_id (basename zip_path) msg ∈
        (upload_to_hf w zip_path repo_id).2 ∧
      ∃ pre suf, msg = pre ++ basename zip_path ++ suf := by
  by_cases hre : w.repoExists repo_id = true
  · refine ⟨by simp [upload_to_hf, hre], by simp [upload_to_hf, hre,
      Effect.isUpload], "Upload automático: " ++ basename zip_path,
      by simp [upload_to_hf, hre], "Upload automático: ", "", by simp⟩
  · refine ⟨by simp [upload_to_hf, hre], by simp [upload_to_hf, hre,
      Effect.isUpload], "Upload automático: " ++ basename zip_path,
      by simp [upload_to_hf, hre], "Upload automático: ", "", by simp⟩

/-- C8: `create_zip` fails whenever the listing holds no regular file —
also when the folder is non-empty because it holds only directories — and
no archive is produced. -/
theorem create_zip_no_files_fails (entries : List FSEntry)
    (h : countFiles entries = 0) :
    create_zip entries = none := by
  simp [create_zip, h]

/-- C8 witness: a folder holding only the empty subdirectory `d` is
non-empty as a listing yet counts zero files, and `create_zip` fails. -/
theorem create_zip_no_files_fails_witness :
    dirOnlyEntries ≠ [] ∧ countFiles dirOnlyEntries = 0 ∧
    create_zip dirOnlyEntries = none :=
  ⟨by decide, by decide, create_zip_no_files_fails dirOnlyEntries (by decide)⟩

/-- C9: `find_folder` tries exactly the claim's ordered candidate list and
returns the symlink-resolved real path of the first candidate that is an
existing directory (`none` when `find?` finds no existing directory). -/
theorem find_folder_candidates_spec (isdir : String → Bool)
    (realpath : String → String) (p : String) :
    possible_paths p = specCandidates p ∧
    find_folder isdir realpath p =
      ((specCandidates p).find? isdir).map realpath := by
  have hpp : possible_paths p = specCandidates p := by
    unfold possible_paths specCandidates
    by_cases hw : strStartsWith p "/workspace" = true <;> simp [hw]
  refine ⟨hpp, ?_⟩
  rw [find_folder, hpp, firstDir_eq_findFirst]

/-- C10: `generate_zip_name` falls back to the folder's own name when the
custom name is empty or whitespace-only, and otherwise strips a trailing
`.zip` case-insensitively and at most once before appending the
timestamp. -/
theorem generate_zip_name_fallback_and_strip (folder custom : String)
    (d : DateTime) :
    generate_zip_name folder custom d =
      (if strTrim custom = "" then pathName folder
       else if strEndsWith (lowerStr custom) ".zip" then strDropRight custom 4
       else custom) ++ "_" ++ fmtTimestamp d ++ ".zip" := by
  by_cases h0 : custom = ""
  · subst h0
    simp [generate_zip_name, show strTrim "" = "" from rfl]
  · by_cases h1 : strTrim custom = ""
    · simp [generate_zip_name, h0, h1]
    · simp [generate_zip_name, h0, h1]

end Huggpackreator
